import Mathlib

/-!
Verification of the libqcpp drivers `gbsqc`, `gbsqc_serial`, `trim`, and of the
paired wrappers of `qc-io.hh`.

A shallow embedding of the three driver programs and of the two inline member
functions of `qc-io.hh`.  A driver run is a pure function from its command line
and its environment to an outcome and the list of observable events, in
program order.

Code that the drivers call but whose bodies live outside the embedded sources
(`Read::str`, `ReadPair::str`, `ProcessedReadStream`, `std::ofstream`) enters as
fields of `Env`.  `getopt(3)` is embedded as glibc implements it, with the
permutation of `argv`.
-/

namespace qcpp

/-! ## Data model (`qc-io.hh`) -/

/-- Sequence record: `class Read` of `qc-io.hh`. -/
structure Read where
  name : String
  sequence : String
  quality : String
deriving DecidableEq, Repr

/-- Modelled from the spec: `Read::size` is declared in `qc-io.hh` and defined
outside the embedded sources; "`size()` is `len(sequence)`". -/
def Read.size (r : Read) : Nat := r.sequence.length

/-- Mates of one fragment: `class ReadPair` of `qc-io.hh` (members `first`, `second`). -/
structure ReadPair where
  first : Read
  second : Read
deriving DecidableEq, Repr

/-- Default-constructed `Read`. -/
def Read.empty : Read := ⟨"", "", ""⟩

/-- Default-constructed `ReadPair`. -/
def ReadPair.empty : ReadPair := ⟨Read.empty, Read.empty⟩

/-! ## Environment and observable events -/

/-- Everything a driver run depends on besides its command line. -/
structure Env where
  /-- Rendering `Read::str` (declared in `qc-io.hh`, body elsewhere). -/
  read_str : Read → String
  /-- Rendering `ReadPair::str` (declared in `qc-io.hh`, body elsewhere). -/
  pair_str : ReadPair → String
  /-- Opening the input at a path: `none` when it succeeds, `some what` when
  `qcpp::IOError` is raised with message `what`. -/
  open_error : String → Option String
  /-- Whether `std::ofstream::open` succeeds on a path. -/
  output_opens : String → Bool
  /-- Responses of the processed stream opened on a path: the value with index `k`
  answers call number `k` (from zero) of `parse_read_pair`; `some rp` stands for
  `true` with the pair filled in, `none` for `false`. -/
  script : String → Nat → Option ReadPair

/-- Observable actions of a run, in program order. -/
inductive Event where
  | cerr (text : String)
  | open_output (path : String) (ok : Bool)
  | open_input (path : String)
  | append_processor (name : String)
  | fetch (got : Bool)
  | progress (n : Nat)
  | write_stdout (text : String)
  | write_output (text : String)
  | open_report (path : String) (ok : Bool)
  | report
  | write_report
  | cerr_report
  | spawn (i : Nat)
  | join (i : Nat)
deriving DecidableEq, Repr

/-- How a run of `main` ends: it returns a status, or an exception nobody
catches leaves `main` (the process is terminated without a return value). -/
inductive Outcome where
  | returned (status : Int)
  | uncaught (what : String)
deriving DecidableEq, Repr

/-- Value of `EXIT_SUCCESS`. -/
def EXIT_SUCCESS : Int := 0

/-- Value of `EXIT_FAILURE`. -/
def EXIT_FAILURE : Int := 1

/-! ## `getopt(3)` of glibc -/

/-- What one call of `getopt` that found an option leaves behind: the returned
character and the globals `optarg`, `optopt`. -/
structure GetoptResult where
  c : Char
  optarg : String
  optopt : Char
deriving DecidableEq, Repr

/-- Looks an option character up in an option string: `none` when it is not an
option (a colon or a semicolon never is), otherwise whether it takes an argument. -/
def optstring_lookup : List Char → Char → Option Bool
  | [], _ => none
  | o :: rest, c =>
    if c = ':' ∨ c = ';' then none
    else if o = c then some (rest.head? = some ':')
    else optstring_lookup rest c

/-- Results of `getopt` over the characters of one `-xyz` element, whether the
following element was consumed as an option argument, and `optopt` afterwards.
An unknown character, or an option whose argument is missing, gives `?` and sets
`optopt` to it; a call that finds a valid option leaves `optopt` as it was.  The
diagnostic that `getopt` itself prints is not recorded. -/
def getopt_cluster (optstring : List Char) (next : Option String) :
    List Char → Char → List GetoptResult × Bool × Char
  | [], optopt => ([], false, optopt)
  | c :: cs, optopt =>
    match optstring_lookup optstring c with
    | none =>
      let r := getopt_cluster optstring next cs c
      (⟨'?', "", c⟩ :: r.1, r.2)
    | some false =>
      let r := getopt_cluster optstring next cs optopt
      (⟨c, "", optopt⟩ :: r.1, r.2)
    | some true =>
      match cs, next with
      | _ :: _, _ => ([⟨c, String.mk cs, optopt⟩], false, optopt)
      | [], some a => ([⟨c, a, optopt⟩], true, optopt)
      | [], none => ([⟨'?', "", c⟩], false, c)

/-- Outcome of scanning the elements after the program name: the results of the
successive calls, the elements used up by options (options, their separate
arguments, and `--`), and the operands, each in their order. -/
structure GetoptScan where
  results : List GetoptResult
  options : List String
  operands : List String
deriving DecidableEq, Repr

/-- Successive calls of `getopt` up to the one that returns `-1`, as glibc makes
them when `POSIXLY_CORRECT` is unset and the option string has no leading `+` or
`-`: an element that is not an option (it does not start with `-`, or is `-`
alone) is skipped and counted as an operand, options after it are still
honoured, and `--` ends the scan, all that follows being operands.  The flag
says that the head element has already been consumed as the argument of the
option before it; the character is the current `optopt`. -/
def getopt_scan (optstring : List Char) : List String → Bool → Char → GetoptScan
  | [], _, _ => ⟨[], [], []⟩
  | a :: rest, true, optopt =>
    let r := getopt_scan optstring rest false optopt
    ⟨r.results, a :: r.options, r.operands⟩
  | a :: rest, false, optopt =>
    match a.data with
    | '-' :: c :: cs =>
      if c = '-' ∧ cs = [] then ⟨[], [a], rest⟩
      else
        let g := getopt_cluster optstring rest.head? (c :: cs) optopt
        let r := getopt_scan optstring rest g.2.1 g.2.2
        ⟨g.1 ++ r.results, a :: r.options, r.operands⟩
    | _ =>
      let r := getopt_scan optstring rest false optopt
      ⟨r.results, r.options, a :: r.operands⟩

/-- State in which the loop over `getopt` leaves the program: the results of the
calls that found an option, the final `optind`, and `argv` as `getopt` has
permuted it (the elements used up by options first, then the operands). -/
structure GetoptRun where
  results : List GetoptResult
  optind : Nat
  argv : List String
deriving DecidableEq, Repr

/-- Scan of a whole command line, `argv` including the program name.  The static
`optopt` that glibc copies out after each call starts as the NUL character. -/
def getopt_run (optstring : String) (argv : List String) : GetoptRun :=
  let s := getopt_scan optstring.data argv.tail false (Char.ofNat 0)
  ⟨s.results, 1 + s.options.length, argv.take 1 ++ s.options ++ s.operands⟩

end qcpp

/-! ## `gbsqc_serial.cc` -/

namespace gbsqc_serial

open qcpp

/-- Body of `usage_err`: the text sent to `std::cerr`. -/
def usage_text : List Event :=
  [Event.cerr "USAGE: gbsqc [-b -y REPORT -o OUTPUT] <read_file>\n\n",
   Event.cerr "OPTIONS:\n",
   Event.cerr " -b         Use broken-paired output (don't keep read pairing) [default: false]\n",
   Event.cerr " -y YAML    YAML report file. [default: none]\n",
   Event.cerr " -o OUTPUT  Output file. [default: stdout]\n"]

/-- Return value of `usage_err`. -/
def usage_err : Int := EXIT_FAILURE

/-- Option string `cli_opts`. -/
def cli_opts : String := "q:y:o:t:l:"

/-- Locals of `main` that option parsing sets. -/
structure Vars where
  yaml_fname : String
  broken_paired : Bool
  use_stdout : Bool
  /-- Whether `read_output` is associated with a file. -/
  read_output_is_open : Bool
deriving DecidableEq, Repr

/-- Initial values of the locals. -/
def Vars.init : Vars := ⟨"", false, true, false⟩

/-- The `while ((c = getopt(...)) > 0) switch (c)` loop over the results of
`getopt`: `Except.error` is the `default:` branch, which returns from `main`.
`std::ofstream::open` fails on a stream that is already open. -/
def parse_options (env : Env) : List GetoptResult → Vars → Except (List Event) (Vars × List Event)
  | [], v => Except.ok (v, [])
  | r :: rs, v =>
    if r.c = 'y' then
      parse_options env rs { v with yaml_fname := r.optarg }
    else if r.c = 'o' then
      let ok := !v.read_output_is_open && env.output_opens r.optarg
      match parse_options env rs
          { v with use_stdout := false, read_output_is_open := v.read_output_is_open || ok } with
      | Except.ok (v', tr) => Except.ok (v', Event.open_output r.optarg ok :: tr)
      | Except.error tr => Except.error (Event.open_output r.optarg ok :: tr)
    else if r.c = 'b' then
      parse_options env rs { v with broken_paired := true }
    else
      Except.error
        (Event.cerr ("Bad arg '" ++ String.singleton r.optopt ++ "'\n\n") :: usage_text)

/-- Text `rp_str` that one iteration of the output loop builds for a fetched pair. -/
def rp_str (env : Env) (broken_paired : Bool) (rp : ReadPair) : String :=
  let s0 := ""
  if broken_paired then
    let s1 := if rp.first.size ≥ 64 then env.read_str rp.first else s0
    if rp.second.size ≥ 64 then s1 ++ env.read_str rp.second else s1
  else
    env.pair_str rp

/-- The loop `while (stream.parse_read_pair(rp))`: `k` counts the calls made so
far, `n_pairs` is the 64-bit counter.  Returns the final `n_pairs` and the events
of the loop; `none` when the fuel runs out first. -/
def output_loop (env : Env) (path : String) (v : Vars) :
    Nat → Nat → Nat → Option (Nat × List Event)
  | 0, _, _ => none
  | fuel + 1, k, n_pairs =>
    match env.script path k with
    | none => some (n_pairs, [Event.fetch false])
    | some rp =>
      let s := rp_str env v.broken_paired rp
      let prog := if n_pairs % 10000 = 0 then [Event.progress n_pairs] else []
      let out := if v.use_stdout then Event.write_stdout s else Event.write_output s
      match output_loop env path v fuel (k + 1) ((n_pairs + 1) % 2 ^ 64) with
      | none => none
      | some (n, tr) => some (n, Event.fetch true :: (prog ++ out :: tr))

/-- The report block after the loop: the report file is opened, `report()` is
called and its text is handed to the file stream, whose state is not tested. -/
def report_block (env : Env) (yaml_fname : String) : List Event :=
  if yaml_fname.length > 0 then
    [Event.open_report yaml_fname (env.output_opens yaml_fname), Event.report,
     Event.write_report]
  else []

/-- Function `main` of `gbsqc_serial.cc`; `argv` includes the program name. -/
def main (env : Env) (fuel : Nat) (argv : List String) : Option (Outcome × List Event) :=
  let g := getopt_run cli_opts argv
  match parse_options env g.results Vars.init with
  | Except.error tr => some (Outcome.returned usage_err, tr)
  | Except.ok (v, tr0) =>
    if g.optind + 1 > argv.length then
      some (Outcome.returned usage_err,
        tr0 ++ Event.cerr "Must provide filename\n\n" :: usage_text)
    else
      let path := g.argv.getD g.optind ""
      match env.open_error path with
      | some what =>
        some (Outcome.returned EXIT_FAILURE,
          tr0 ++ [Event.open_input path, Event.cerr "Error opening input file:\n",
                  Event.cerr (what ++ "\n")])
      | none =>
        let qc_before := false
        let setup := Event.open_input path ::
          ((if qc_before then [Event.append_processor "before qc"] else []) ++
          [Event.append_processor "trim or merge reads",
           Event.append_processor "QC",
           Event.append_processor "after qc"])
        match output_loop env path v fuel 0 0 with
        | none => none
        | some (n_pairs, tr) =>
          some (Outcome.returned EXIT_SUCCESS,
            tr0 ++ setup ++ tr ++ [Event.progress n_pairs, Event.cerr "\n"]
              ++ report_block env v.yaml_fname)

end gbsqc_serial

/-! ## `gbsqc.cc` -/

namespace gbsqc

open qcpp

/-- Body of `usage_err`: the text sent to `std::cerr`. -/
def usage_text : List Event :=
  [Event.cerr "USAGE: gbsqc [-y REPORT -o OUTPUT] <read_file>\n"]

/-- Return value of `usage_err`. -/
def usage_err : Int := EXIT_FAILURE

/-- Option string `cli_opts`. -/
def cli_opts : String := "y:o:"

/-- Locals of `main` that option parsing sets. -/
structure Vars where
  yaml_fname : String
  use_stdout : Bool
  /-- Whether `read_output` is associated with a file. -/
  read_output_is_open : Bool
deriving DecidableEq, Repr

/-- Initial values of the locals. -/
def Vars.init : Vars := ⟨"", true, false⟩

/-- The `while ((c = getopt(...)) > 0) switch (c)` loop over the results of
`getopt`: `Except.error` is the `default:` branch, which returns from `main`.
`std::ofstream::open` fails on a stream that is already open. -/
def parse_options (env : Env) : List GetoptResult → Vars → Except (List Event) (Vars × List Event)
  | [], v => Except.ok (v, [])
  | r :: rs, v =>
    if r.c = 'y' then
      parse_options env rs { v with yaml_fname := r.optarg }
    else if r.c = 'o' then
      let ok := !v.read_output_is_open && env.output_opens r.optarg
      match parse_options env rs
          { v with use_stdout := false, read_output_is_open := v.read_output_is_open || ok } with
      | Except.ok (v', tr) => Except.ok (v', Event.open_output r.optarg ok :: tr)
      | Except.error tr => Except.error (Event.open_output r.optarg ok :: tr)
    else
      Except.error
        (Event.cerr ("Bad arg '" ++ String.singleton r.optopt ++ "'\n\n") :: usage_text)

/-- The loop `while (stream.parse_read_pair(rp))`: `k` counts the calls made so
far, `n_pairs` is the 64-bit counter.  Returns the final `n_pairs` and the events
of the loop; `none` when the fuel runs out first. -/
def output_loop (env : Env) (path : String) (v : Vars) :
    Nat → Nat → Nat → Option (Nat × List Event)
  | 0, _, _ => none
  | fuel + 1, k, n_pairs =>
    match env.script path k with
    | none => some (n_pairs, [Event.fetch false])
    | some rp =>
      let prog := if n_pairs % 100000 = 0 then [Event.progress n_pairs] else []
      let out :=
        if v.use_stdout then Event.write_stdout (env.pair_str rp)
        else Event.write_output (env.pair_str rp)
      match output_loop env path v fuel (k + 1) ((n_pairs + 1) % 2 ^ 64) with
      | none => none
      | some (n, tr) => some (n, Event.fetch true :: (prog ++ out :: tr))

/-- The report block after the loop: the report file is opened, `report()` is
called and its text is handed to the file stream, whose state is not tested. -/
def report_block (env : Env) (yaml_fname : String) : List Event :=
  if yaml_fname.length > 0 then
    [Event.open_report yaml_fname (env.output_opens yaml_fname), Event.report,
     Event.write_report]
  else []

/-- Function `main` of `gbsqc.cc`; `argv` includes the program name.  The stream
is built by the constructor that takes the file name, outside any `try`. -/
def main (env : Env) (fuel : Nat) (argv : List String) : Option (Outcome × List Event) :=
  let g := getopt_run cli_opts argv
  match parse_options env g.results Vars.init with
  | Except.error tr => some (Outcome.returned usage_err, tr)
  | Except.ok (v, tr0) =>
    if g.optind + 1 > argv.length then
      some (Outcome.returned usage_err,
        tr0 ++ Event.cerr "Must provide filename\n\n" :: usage_text)
    else
      let path := g.argv.getD g.optind ""
      match env.open_error path with
      | some what => some (Outcome.uncaught what, tr0 ++ [Event.open_input path])
      | none =>
        let setup := [Event.open_input path,
          Event.append_processor "trim Pst1 read-through",
          Event.append_processor "QC"]
        match output_loop env path v fuel 0 0 with
        | none => none
        | some (n_pairs, tr) =>
          some (Outcome.returned EXIT_SUCCESS,
            tr0 ++ setup ++ tr ++ [Event.progress n_pairs, Event.cerr "\n"]
              ++ report_block env v.yaml_fname)

end gbsqc

/-! ## `util/trim.cc` -/

namespace trim

open qcpp

/-- The `while (not_at_end)` loop of `parse_and_print`: `k` counts the calls of
`parse_read_pair` made so far.  Returns the final count and the events of the
loop; `none` when the fuel runs out first. -/
def parse_and_print_loop (env : Env) (path : String) :
    Nat → Bool → ReadPair → Nat → Option (Nat × List Event)
  | 0, _, _, _ => none
  | fuel + 1, not_at_end, rp, k =>
    if not_at_end then
      let rp_str := env.pair_str rp
      match env.script path k with
      | some rp' =>
        match parse_and_print_loop env path fuel true rp' (k + 1) with
        | none => none
        | some (k', tr) => some (k', Event.write_stdout rp_str :: Event.fetch true :: tr)
      | none =>
        match parse_and_print_loop env path fuel false rp (k + 1) with
        | none => none
        | some (k', tr) => some (k', Event.write_stdout rp_str :: Event.fetch false :: tr)
    else some (k, [])

/-- Function `parse_and_print` run by one thread alone on a stream that has
answered `k` calls so far. -/
def parse_and_print (env : Env) (path : String) (fuel k : Nat) : Option (Nat × List Event) :=
  let rp := ReadPair.empty
  match env.script path k with
  | some rp' =>
    match parse_and_print_loop env path fuel true rp' (k + 1) with
    | none => none
    | some (k', tr) => some (k', Event.fetch true :: tr)
  | none =>
    match parse_and_print_loop env path fuel false rp (k + 1) with
    | none => none
    | some (k', tr) => some (k', Event.fetch false :: tr)

/-- Function `main` of `trim.cc`, as the main thread sees it; `n_threads` is the
value of `std::thread::hardware_concurrency()`.  `Event.spawn i` is the
construction of thread `i` running `parse_and_print`, `Event.join i` its join. -/
def main (env : Env) (n_threads : Nat) (argv : List String) : Outcome × List Event :=
  if argv.length ≠ 2 then
    (Outcome.returned EXIT_FAILURE,
      [Event.cerr ("USAGE: " ++ argv.headD "" ++ " <read_file>\n")])
  else
    let path := argv.getD 1 ""
    match env.open_error path with
    | some what => (Outcome.uncaught what, [Event.open_input path])
    | none =>
      (Outcome.returned EXIT_SUCCESS,
        [Event.open_input path,
         Event.append_processor "before qc",
         Event.append_processor "trim/merge reads",
         Event.append_processor "after Adaptor removal",
         Event.append_processor "trim at 50",
         Event.append_processor "after qc"]
        ++ (List.range n_threads).map Event.spawn
        ++ (List.range n_threads).map Event.join
        ++ [Event.report, Event.cerr_report])

/-- Events of the whole process: each event of the main thread, and with every
thread it starts the events `worker i` of that thread (whatever the schedule made
them). -/
def process_events (worker : Nat → List Event) : List Event → List Event
  | [] => []
  | Event.spawn i :: tr => Event.spawn i :: (worker i ++ process_events worker tr)
  | e :: tr => e :: process_events worker tr

end trim

/-! ## Paired wrappers of `qc-io.hh` -/

namespace qcpp

/-- State of a `ReadParser`: the members of `ReadInputStream` and of `ReadIO`,
the SeqAn handle being the records it has still to deliver. -/
structure ReadParser where
  _at_end : Bool
  _num_reads : Nat
  _has_qual : Bool
  _private : List Read
deriving DecidableEq, Repr

/-- State of a `ReadWriter`: the members of `ReadIO`, the SeqAn handle being the
records written so far. -/
structure ReadWriter where
  _num_reads : Nat
  _has_qual : Bool
  _private : List Read
deriving DecidableEq, Repr

/-- State of a `ReadInterleaver`; `parser_r1` and `parser_r2` are the members named
`r1_parser` and `r2_parser` in the source. -/
structure ReadInterleaver where
  _at_end : Bool
  parser_r1 : ReadParser
  parser_r2 : ReadParser
  _num_pairs : Nat
deriving DecidableEq, Repr

/-- State of a `ReadDeInterleaver`. -/
structure ReadDeInterleaver where
  r1_writer : ReadWriter
  r2_writer : ReadWriter
  _num_pairs : Nat
deriving DecidableEq, Repr

/-- Inline body of `ReadInterleaver::parse_read`: the return value, the read
argument and the object after the call. -/
def ReadInterleaver.parse_read (self : ReadInterleaver) (the_read : Read) :
    Bool × Read × ReadInterleaver :=
  let _ignore := the_read
  (false, the_read, self)

/-- Inline body of `ReadDeInterleaver::write_read`: the read argument and the
object after the call. -/
def ReadDeInterleaver.write_read (self : ReadDeInterleaver) (the_read : Read) :
    Read × ReadDeInterleaver :=
  let _ignore := the_read
  (the_read, self)

/-! ## Observations on runs -/

/-- The stream opened at `path` answers `true` with exactly the pairs `ps`, in
order, from call `k` on, and `false` at the call after them. -/
def yields (env : Env) (path : String) : Nat → List ReadPair → Prop
  | k, [] => env.script path k = none
  | k, p :: ps => env.script path k = some p ∧ yields env path (k + 1) ps

/-- Texts handed to the read output (standard output or the `-o` file), in order. -/
def writes : List Event → List String
  | [] => []
  | Event.write_stdout s :: tr => s :: writes tr
  | Event.write_output s :: tr => s :: writes tr
  | _ :: tr => writes tr

/-- Results of the calls of `parse_read_pair`, in order. -/
def fetches : List Event → List Bool
  | [] => []
  | Event.fetch b :: tr => b :: fetches tr
  | _ :: tr => fetches tr

/-- Whether an event belongs to producing the report. -/
def Event.is_report : Event → Bool
  | Event.open_report _ _ => true
  | Event.report => true
  | Event.write_report => true
  | Event.cerr_report => true
  | _ => false

/-- Whether an event fetches a pair or writes a read record. -/
def Event.is_read_traffic : Event → Bool
  | Event.fetch _ => true
  | Event.write_stdout _ => true
  | Event.write_output _ => true
  | _ => false

/-- A run that fetched no pair and wrote no read record and no report. -/
def quiet (tr : List Event) : Prop :=
  ∀ e ∈ tr, e.is_read_traffic = false ∧ e.is_report = false

/-- The path of the last `-y` among the results of `getopt`, empty when there is none. -/
def last_yaml : List GetoptResult → String → String
  | [], y => y
  | r :: rs, y => if r.c = 'y' then last_yaml rs r.optarg else last_yaml rs y

/-- FASTQ text of a read, nothing for a read without bases. -/
def sample_read_str (r : Read) : String :=
  if r.sequence.length = 0 then ""
  else "@" ++ r.name ++ "\n" ++ r.sequence ++ "\n+\n" ++ r.quality ++ "\n"

/-- A pair whose first mate has been emptied and whose second mate has four bases. -/
def sample_pair : ReadPair :=
  ⟨⟨"frag1/1", "", ""⟩, ⟨"frag1/2", "ACGT", "IIII"⟩⟩

/-- Events of fetching each pair of a list and printing it, in order. -/
def fetched_and_printed (env : Env) : List ReadPair → List Event
  | [] => []
  | p :: ps =>
    Event.fetch true :: Event.write_stdout (env.pair_str p) :: fetched_and_printed env ps

/-- A pair whose first mate has seventy bases and whose second mate has four. -/
def sample_long_pair : ReadPair :=
  ⟨⟨"frag2/1", String.mk (List.replicate 70 'A'), String.mk (List.replicate 70 'I')⟩,
   ⟨"frag2/2", "ACGT", "IIII"⟩⟩

/-- An environment for concrete runs: FASTQ renderings (a pair is its two mates in
order), an input that opens and holds `sample_pair` alone, and no output file
that can be opened. -/
def sample_env : Env where
  read_str := sample_read_str
  pair_str := fun rp => sample_read_str rp.first ++ sample_read_str rp.second
  open_error := fun _ => none
  output_opens := fun _ => false
  script := fun _ k => if k = 0 then some sample_pair else none

/-- The environment `sample_env` with an input that holds `sample_long_pair` and
then `sample_pair`. -/
def sample_env_long : Env where
  read_str := sample_read_str
  pair_str := fun rp => sample_read_str rp.first ++ sample_read_str rp.second
  open_error := fun _ => none
  output_opens := fun _ => false
  script := fun _ k =>
    if k = 0 then some sample_long_pair else if k = 1 then some sample_pair else none

/-- The environment `sample_env` with an input that cannot be opened. -/
def sample_env_unreadable : Env where
  read_str := sample_read_str
  pair_str := fun rp => sample_read_str rp.first ++ sample_read_str rp.second
  open_error := fun path => some ("Could not open " ++ path)
  output_opens := fun _ => false
  script := fun _ _ => none

end qcpp

/-! ## Theorems -/

namespace qcpp

theorem writes_append (a b : List Event) : writes (a ++ b) = writes a ++ writes b := by
  induction a with
  | nil => rfl
  | cons e a ih => cases e <;> simp [writes, ih]

theorem fetches_append (a b : List Event) : fetches (a ++ b) = fetches a ++ fetches b := by
  induction a with
  | nil => rfl
  | cons e a ih => cases e <;> simp [fetches, ih]

theorem writes_of_no_traffic (tr : List Event)
    (h : ∀ e ∈ tr, e.is_read_traffic = false) : writes tr = [] := by
  induction tr with
  | nil => rfl
  | cons e tr ih =>
    have he := h e (List.mem_cons_self _ _)
    have ht := ih (fun x hx => h x (List.mem_cons_of_mem _ hx))
    cases e <;> simp_all [writes, Event.is_read_traffic]

theorem string_length_pos (y : String) : y.length > 0 ↔ y ≠ "" := by
  constructor
  · intro h he
    rw [he] at h
    exact absurd h (by decide)
  · intro h
    by_contra hc
    apply h
    have h0 : y.length = 0 := by omega
    exact String.ext (List.length_eq_zero.mp h0)

end qcpp

namespace gbsqc_serial

open qcpp

/-- The output loop on a stream that yields `ps` and is then exhausted: it ends,
its last event is the fetch that fails, and before it every pair was fetched and
its text written, with no report event. -/
theorem output_loop_spec (env : Env) (path : String) (v : Vars) :
    ∀ (ps : List ReadPair) (fuel k n : Nat), yields env path k ps → ps.length < fuel →
      ∃ n' body, output_loop env path v fuel k n = some (n', body ++ [Event.fetch false]) ∧
        writes body = ps.map (rp_str env v.broken_paired) ∧
        fetches body = List.replicate ps.length true ∧
        (∀ e ∈ body, e.is_report = false) ∧
        (v.use_stdout = false → ∀ t, Event.write_stdout t ∉ body) := by
  intro ps
  induction ps with
  | nil =>
    intro fuel k n hy hf
    obtain ⟨f, rfl⟩ : ∃ f, fuel = f + 1 := ⟨fuel - 1, by simp at hf; omega⟩
    refine ⟨n, [], ?_, rfl, rfl, by simp, by simp⟩
    have hs : env.script path k = none := hy
    simp [output_loop, hs]
  | cons p ps ih =>
    intro fuel k n hy hf
    obtain ⟨f, rfl⟩ : ∃ f, fuel = f + 1 := ⟨fuel - 1, by simp at hf; omega⟩
    obtain ⟨hs, hrest⟩ : env.script path k = some p ∧ yields env path (k + 1) ps := hy
    have hf' : ps.length < f := by simp at hf; omega
    obtain ⟨n', body, hrun, hw, hfe, hrep, hout⟩ :=
      ih f (k + 1) ((n + 1) % 2 ^ 64) hrest hf'
    refine ⟨n', Event.fetch true ::
      ((if n % 10000 = 0 then [Event.progress n] else []) ++
        (if v.use_stdout then Event.write_stdout (rp_str env v.broken_paired p)
          else Event.write_output (rp_str env v.broken_paired p)) :: body),
      ?_, ?_, ?_, ?_, ?_⟩
    · rw [output_loop, hs]
      simp only []
      rw [hrun]
      simp
    · by_cases hp : n % 10000 = 0 <;> cases hu : v.use_stdout <;>
        simp [hp, writes, hw]
    · by_cases hp : n % 10000 = 0 <;> cases hu : v.use_stdout <;>
        simp [hp, fetches, hfe, List.replicate_succ]
    · intro e he
      by_cases hp : n % 10000 = 0 <;> cases hu : v.use_stdout <;>
        simp [hp, hu] at he <;>
        rcases he with he | he | he <;>
        first
          | exact hrep e he
          | (subst he; rfl)
          | (rcases he with he | he <;> first | exact hrep e he | (subst he; rfl))
    · intro hu t ht
      have hb := hout hu t
      by_cases hp : n % 10000 = 0 <;> simp [hp, hu, hb] at ht

/-- Option parsing that succeeds leaves the path of the last `-y` in `yaml_fname`
and has only opened output files. -/
theorem parse_options_ok (env : Env) :
    ∀ (rs : List GetoptResult) (v v' : Vars) (tr : List Event),
      parse_options env rs v = Except.ok (v', tr) →
        v'.yaml_fname = last_yaml rs v.yaml_fname ∧
        (∀ e ∈ tr, e.is_read_traffic = false ∧ e.is_report = false) := by
  intro rs
  induction rs with
  | nil =>
    intro v v' tr h
    simp only [parse_options, Except.ok.injEq, Prod.mk.injEq] at h
    obtain ⟨rfl, rfl⟩ := h
    simp [last_yaml]
  | cons r rs ih =>
    intro v v' tr h
    rw [parse_options] at h
    by_cases hy : r.c = 'y'
    · rw [if_pos hy] at h
      have := ih _ _ _ h
      simpa [last_yaml, hy] using this
    · by_cases ho : r.c = 'o'
      · rw [if_neg hy, if_pos ho] at h
        simp only [] at h
        split at h
        · rename_i v1 tr1 hrec
          simp only [Except.ok.injEq, Prod.mk.injEq] at h
          obtain ⟨rfl, rfl⟩ := h
          have := ih _ _ _ hrec
          refine ⟨by simpa [last_yaml, hy] using this.1, ?_⟩
          intro e he
          rcases List.mem_cons.mp he with rfl | he
          · exact ⟨rfl, rfl⟩
          · exact this.2 e he
        · cases h
      · by_cases hb : r.c = 'b'
        · rw [if_neg hy, if_neg ho, if_pos hb] at h
          have := ih _ _ _ h
          simpa [last_yaml, hy] using this
        · rw [if_neg hy, if_neg ho, if_neg hb] at h
          cases h

/-- Option parsing that fails has fetched and written nothing. -/
theorem parse_options_error (env : Env) :
    ∀ (rs : List GetoptResult) (v : Vars) (tr : List Event),
      parse_options env rs v = Except.error tr → quiet tr := by
  intro rs
  induction rs with
  | nil =>
    intro v tr h
    simp [parse_options] at h
  | cons r rs ih =>
    intro v tr h
    rw [parse_options] at h
    by_cases hy : r.c = 'y'
    · rw [if_pos hy] at h
      exact ih _ _ h
    · by_cases ho : r.c = 'o'
      · rw [if_neg hy, if_pos ho] at h
        simp only [] at h
        split at h
        · cases h
        · rename_i tr1 hrec
          simp only [Except.error.injEq] at h
          subst h
          intro e he
          rcases List.mem_cons.mp he with rfl | he
          · exact ⟨rfl, rfl⟩
          · exact ih _ _ hrec e he
      · by_cases hb : r.c = 'b'
        · rw [if_neg hy, if_neg ho, if_pos hb] at h
          exact ih _ _ h
        · rw [if_neg hy, if_neg ho, if_neg hb] at h
          simp only [Except.error.injEq] at h
          subst h
          intro e he
          simp only [usage_text, List.mem_cons, List.mem_singleton, List.not_mem_nil,
            or_false] at he
          rcases he with rfl | rfl | rfl | rfl | rfl | rfl <;> exact ⟨rfl, rfl⟩

/-- A run that gets past option parsing, finds a read file, opens it and exhausts
the stream: it returns `EXIT_SUCCESS`; the fetch that fails is followed by the
last progress line and the report block only. -/
theorem main_completes (env : Env) (fuel : Nat) (argv : List String) (ps : List ReadPair)
    (v : Vars) (tr0 : List Event)
    (hopt : parse_options env (getopt_run cli_opts argv).results Vars.init
      = Except.ok (v, tr0))
    (harg : (getopt_run cli_opts argv).optind < argv.length)
    (hopen : env.open_error
      ((getopt_run cli_opts argv).argv.getD (getopt_run cli_opts argv).optind "") = none)
    (hy : yields env ((getopt_run cli_opts argv).argv.getD (getopt_run cli_opts argv).optind "") 0 ps)
    (hf : ps.length < fuel) :
    ∃ n body, main env fuel argv = some (Outcome.returned EXIT_SUCCESS,
        body ++ [Event.fetch false, Event.progress n, Event.cerr "\n"]
          ++ report_block env v.yaml_fname) ∧
      writes body = ps.map (rp_str env v.broken_paired) ∧
      (∀ e ∈ body, e.is_report = false) ∧
      (v.use_stdout = false → ∀ t, Event.write_stdout t ∉ body) := by
  obtain ⟨n, body, hrun, hw, _, hrep, hout⟩ :=
    output_loop_spec env _ v ps fuel 0 0 hy hf
  have htr0 := (parse_options_ok env _ _ _ _ hopt).2
  refine ⟨n, tr0 ++ [Event.open_input
      ((getopt_run cli_opts argv).argv.getD (getopt_run cli_opts argv).optind ""),
      Event.append_processor "trim or merge reads", Event.append_processor "QC",
      Event.append_processor "after qc"] ++ body, ?_, ?_, ?_, ?_⟩
  · have hna : ¬ (getopt_run cli_opts argv).optind + 1 > argv.length := by omega
    simp only [main, hopt, hna, if_false, hopen, hrun]
    simp
  · rw [writes_append, writes_append, hw, writes_of_no_traffic tr0 (fun e he => (htr0 e he).1)]
    rfl
  · intro e he
    simp only [List.mem_append, List.mem_cons, List.mem_singleton, List.not_mem_nil,
      or_false] at he
    rcases he with (he | he) | he
    · exact (htr0 e he).2
    · rcases he with rfl | rfl | rfl | rfl <;> rfl
    · exact hrep e he
  · intro hu t ht
    simp only [List.mem_append, List.mem_cons, List.mem_singleton, List.not_mem_nil,
      or_false] at ht
    rcases ht with (ht | ht) | ht
    · have := (htr0 _ ht).1
      simp [Event.is_read_traffic] at this
    · rcases ht with ht | ht | ht | ht <;> cases ht
    · exact hout hu t ht

/-- C1: `gbsqc_serial -b <read_file>` is rejected: `b` is missing from `cli_opts`,
so `getopt` answers `?`, the `default:` branch prints `Bad arg 'b'` with the usage
text and `main` returns `EXIT_FAILURE`, without opening the input. -/
theorem main_rejects_documented_b (env : Env) (fuel : Nat) (prog path : String) :
    main env fuel [prog, "-b", path]
      = some (Outcome.returned EXIT_FAILURE, Event.cerr "Bad arg 'b'\n\n" :: usage_text) := by
  simp [main, getopt_run, getopt_scan, getopt_cluster, optstring_lookup, cli_opts,
    parse_options, usage_err]
  rfl

end gbsqc_serial

namespace gbsqc

open qcpp

/-- The output loop on a stream that yields `ps` and is then exhausted: it ends,
its last event is the fetch that fails, and before it every pair was fetched and
its text written, with no report event. -/
theorem output_loop_spec_gbsqc (env : Env) (path : String) (v : Vars) :
    ∀ (ps : List ReadPair) (fuel k n : Nat), yields env path k ps → ps.length < fuel →
      ∃ n' body, output_loop env path v fuel k n = some (n', body ++ [Event.fetch false]) ∧
        writes body = ps.map env.pair_str ∧
        fetches body = List.replicate ps.length true ∧
        (∀ e ∈ body, e.is_report = false) ∧
        (v.use_stdout = false → ∀ t, Event.write_stdout t ∉ body) := by
  intro ps
  induction ps with
  | nil =>
    intro fuel k n hy hf
    obtain ⟨f, rfl⟩ : ∃ f, fuel = f + 1 := ⟨fuel - 1, by simp at hf; omega⟩
    refine ⟨n, [], ?_, rfl, rfl, by simp, by simp⟩
    have hs : env.script path k = none := hy
    simp [output_loop, hs]
  | cons p ps ih =>
    intro fuel k n hy hf
    obtain ⟨f, rfl⟩ : ∃ f, fuel = f + 1 := ⟨fuel - 1, by simp at hf; omega⟩
    obtain ⟨hs, hrest⟩ : env.script path k = some p ∧ yields env path (k + 1) ps := hy
    have hf' : ps.length < f := by simp at hf; omega
    obtain ⟨n', body, hrun, hw, hfe, hrep, hout⟩ :=
      ih f (k + 1) ((n + 1) % 2 ^ 64) hrest hf'
    refine ⟨n', Event.fetch true ::
      ((if n % 100000 = 0 then [Event.progress n] else []) ++
        (if v.use_stdout then Event.write_stdout (env.pair_str p)
          else Event.write_output (env.pair_str p)) :: body),
      ?_, ?_, ?_, ?_, ?_⟩
    · rw [output_loop, hs]
      simp only []
      rw [hrun]
      simp
    · by_cases hp : n % 100000 = 0 <;> cases hu : v.use_stdout <;>
        simp [hp, writes, hw]
    · by_cases hp : n % 100000 = 0 <;> cases hu : v.use_stdout <;>
        simp [hp, fetches, hfe, List.replicate_succ]
    · intro e he
      by_cases hp : n % 100000 = 0 <;> cases hu : v.use_stdout <;>
        simp [hp, hu] at he <;>
        rcases he with he | he | he <;>
        first
          | exact hrep e he
          | (subst he; rfl)
          | (rcases he with he | he <;> first | exact hrep e he | (subst he; rfl))
    · intro hu t ht
      have hb := hout hu t
      by_cases hp : n % 100000 = 0 <;> simp [hp, hu, hb] at ht

/-- Option parsing that succeeds leaves the path of the last `-y` in `yaml_fname`
and has only opened output files. -/
theorem parse_options_ok_gbsqc (env : Env) :
    ∀ (rs : List GetoptResult) (v v' : Vars) (tr : List Event),
      parse_options env rs v = Except.ok (v', tr) →
        v'.yaml_fname = last_yaml rs v.yaml_fname ∧
        (∀ e ∈ tr, e.is_read_traffic = false ∧ e.is_report = false) := by
  intro rs
  induction rs with
  | nil =>
    intro v v' tr h
    simp only [parse_options, Except.ok.injEq, Prod.mk.injEq] at h
    obtain ⟨rfl, rfl⟩ := h
    simp [last_yaml]
  | cons r rs ih =>
    intro v v' tr h
    rw [parse_options] at h
    by_cases hy : r.c = 'y'
    · rw [if_pos hy] at h
      have := ih _ _ _ h
      simpa [last_yaml, hy] using this
    · by_cases ho : r.c = 'o'
      · rw [if_neg hy, if_pos ho] at h
        simp only [] at h
        split at h
        · rename_i v1 tr1 hrec
          simp only [Except.ok.injEq, Prod.mk.injEq] at h
          obtain ⟨rfl, rfl⟩ := h
          have := ih _ _ _ hrec
          refine ⟨by simpa [last_yaml, hy] using this.1, ?_⟩
          intro e he
          rcases List.mem_cons.mp he with rfl | he
          · exact ⟨rfl, rfl⟩
          · exact this.2 e he
        · cases h
      · rw [if_neg hy, if_neg ho] at h
        cases h

/-- Option parsing that fails has fetched and written nothing. -/
theorem parse_options_error_gbsqc (env : Env) :
    ∀ (rs : List GetoptResult) (v : Vars) (tr : List Event),
      parse_options env rs v = Except.error tr → quiet tr := by
  intro rs
  induction rs with
  | nil =>
    intro v tr h
    simp [parse_options] at h
  | cons r rs ih =>
    intro v tr h
    rw [parse_options] at h
    by_cases hy : r.c = 'y'
    · rw [if_pos hy] at h
      exact ih _ _ h
    · by_cases ho : r.c = 'o'
      · rw [if_neg hy, if_pos ho] at h
        simp only [] at h
        split at h
        · cases h
        · rename_i tr1 hrec
          simp only [Except.error.injEq] at h
          subst h
          intro e he
          rcases List.mem_cons.mp he with rfl | he
          · exact ⟨rfl, rfl⟩
          · exact ih _ _ hrec e he
      · rw [if_neg hy, if_neg ho] at h
        simp only [Except.error.injEq] at h
        subst h
        intro e he
        simp only [usage_text, List.mem_cons, List.mem_singleton, List.not_mem_nil,
          or_false] at he
        rcases he with rfl | rfl <;> exact ⟨rfl, rfl⟩

/-- A run that gets past option parsing, finds a read file, opens it and exhausts
the stream: it returns `EXIT_SUCCESS`; the fetch that fails is followed by the
last progress line and the report block only. -/
theorem main_completes_gbsqc (env : Env) (fuel : Nat) (argv : List String) (ps : List ReadPair)
    (v : Vars) (tr0 : List Event)
    (hopt : parse_options env (getopt_run cli_opts argv).results Vars.init
      = Except.ok (v, tr0))
    (harg : (getopt_run cli_opts argv).optind < argv.length)
    (hopen : env.open_error
      ((getopt_run cli_opts argv).argv.getD (getopt_run cli_opts argv).optind "") = none)
    (hy : yields env ((getopt_run cli_opts argv).argv.getD (getopt_run cli_opts argv).optind "") 0 ps)
    (hf : ps.length < fuel) :
    ∃ n body, main env fuel argv = some (Outcome.returned EXIT_SUCCESS,
        body ++ [Event.fetch false, Event.progress n, Event.cerr "\n"]
          ++ report_block env v.yaml_fname) ∧
      writes body = ps.map env.pair_str ∧
      (∀ e ∈ body, e.is_report = false) ∧
      (v.use_stdout = false → ∀ t, Event.write_stdout t ∉ body) := by
  obtain ⟨n, body, hrun, hw, _, hrep, hout⟩ :=
    output_loop_spec_gbsqc env _ v ps fuel 0 0 hy hf
  have htr0 := (parse_options_ok_gbsqc env _ _ _ _ hopt).2
  refine ⟨n, tr0 ++ [Event.open_input
      ((getopt_run cli_opts argv).argv.getD (getopt_run cli_opts argv).optind ""),
      Event.append_processor "trim Pst1 read-through", Event.append_processor "QC"] ++ body, ?_, ?_, ?_, ?_⟩
  · have hna : ¬ (getopt_run cli_opts argv).optind + 1 > argv.length := by omega
    simp only [main, hopt, hna, if_false, hopen, hrun]
    simp
  · rw [writes_append, writes_append, hw, writes_of_no_traffic tr0 (fun e he => (htr0 e he).1)]
    rfl
  · intro e he
    simp only [List.mem_append, List.mem_cons, List.mem_singleton, List.not_mem_nil,
      or_false] at he
    rcases he with (he | he) | he
    · exact (htr0 e he).2
    · rcases he with rfl | rfl | rfl <;> rfl
    · exact hrep e he
  · intro hu t ht
    simp only [List.mem_append, List.mem_cons, List.mem_singleton, List.not_mem_nil,
      or_false] at ht
    rcases ht with (ht | ht) | ht
    · have := (htr0 _ ht).1
      simp [Event.is_read_traffic] at this
    · rcases ht with ht | ht | ht <;> cases ht
    · exact hout hu t ht

end gbsqc

/-! ## Claims about the output loops -/

namespace gbsqc_serial

open qcpp

/-- C2: in broken-paired mode, on a stream that yields the pairs `ps` and is then
exhausted, the output loop ends and the texts it writes are, pair by pair, the
rendering of the first mate when it has at least 64 bases (nothing otherwise)
followed by the rendering of the second mate when it has at least 64 bases
(nothing otherwise). -/
theorem broken_paired_output (env : Env) (path : String) (v : Vars) (ps : List ReadPair)
    (fuel : Nat) (hb : v.broken_paired = true) (hy : yields env path 0 ps)
    (hf : ps.length < fuel) :
    ∃ n tr, output_loop env path v fuel 0 0 = some (n, tr) ∧
      writes tr = ps.map (fun rp =>
        (if rp.first.size ≥ 64 then env.read_str rp.first else "") ++
        (if rp.second.size ≥ 64 then env.read_str rp.second else "")) := by
  obtain ⟨n, body, hrun, hw, _, _, _⟩ := output_loop_spec env path v ps fuel 0 0 hy hf
  refine ⟨n, body ++ [Event.fetch false], hrun, ?_⟩
  rw [writes_append, hw, hb]
  simp only [writes, List.append_nil]
  apply List.map_congr_left
  intro rp _
  by_cases h1 : rp.first.size ≥ 64 <;> by_cases h2 : rp.second.size ≥ 64 <;>
    simp [rp_str, h1, h2]

/-- Witness for C2: a stream holding a pair with a mate of seventy bases and a
mate of four, then a pair with no mate of 64 bases. -/
theorem broken_paired_output_witness :
    (⟨"", true, true, false⟩ : Vars).broken_paired = true ∧
    yields sample_env_long "reads.fq" 0 [sample_long_pair, sample_pair] ∧
    [sample_long_pair, sample_pair].length < 3 ∧
    ∃ n tr, output_loop sample_env_long "reads.fq" ⟨"", true, true, false⟩ 3 0 0 = some (n, tr) ∧
      writes tr = [sample_long_pair, sample_pair].map (fun rp =>
        (if rp.first.size ≥ 64 then sample_env_long.read_str rp.first else "") ++
        (if rp.second.size ≥ 64 then sample_env_long.read_str rp.second else "")) :=
  ⟨rfl, ⟨rfl, rfl, rfl⟩, by decide,
    broken_paired_output sample_env_long "reads.fq" ⟨"", true, true, false⟩
      [sample_long_pair, sample_pair] 3 rfl ⟨rfl, rfl, rfl⟩ (by decide)⟩

end gbsqc_serial

namespace qcpp

end qcpp

/-! ## Claims about exit status and the report -/

namespace qcpp

/-- C5, as stated, fails: with `-o` naming a file that cannot be opened (in
`sample_env` no output file opens) and a readable input, both drivers return
`EXIT_SUCCESS`. -/
theorem unopenable_output_exits_success :
    sample_env.output_opens "/nonexistent/out.fq" = false ∧
    (gbsqc_serial.main sample_env 2
      ["gbsqc_serial", "-o", "/nonexistent/out.fq", "reads.fq"]).map Prod.fst
        = some (Outcome.returned 0) ∧
    (gbsqc.main sample_env 2
      ["gbsqc", "-o", "/nonexistent/out.fq", "reads.fq"]).map Prod.fst
        = some (Outcome.returned 0) := by
  refine ⟨rfl, ?_, ?_⟩ <;> rfl

/-- C5, amended: the drivers never test the result of opening the `-o` file.
Whether or not it opened, a run with `-o` whose options parse, that names a read
file, opens it and exhausts the stream returns `EXIT_SUCCESS`, and it has written
nothing to standard output. -/
theorem output_open_result_ignored (env : Env) (fuel : Nat) (argv : List String)
    (ps : List ReadPair) :
    (∀ (v : gbsqc_serial.Vars) (tr0 : List Event),
      gbsqc_serial.parse_options env
        (getopt_run gbsqc_serial.cli_opts argv).results gbsqc_serial.Vars.init
          = Except.ok (v, tr0) →
      v.use_stdout = false →
      (getopt_run gbsqc_serial.cli_opts argv).optind < argv.length →
      env.open_error
        ((getopt_run gbsqc_serial.cli_opts argv).argv.getD (getopt_run gbsqc_serial.cli_opts argv).optind "") = none →
      yields env
        ((getopt_run gbsqc_serial.cli_opts argv).argv.getD (getopt_run gbsqc_serial.cli_opts argv).optind "") 0 ps →
      ps.length < fuel →
      ∃ tr, gbsqc_serial.main env fuel argv = some (Outcome.returned EXIT_SUCCESS, tr) ∧
        ∀ t, Event.write_stdout t ∉ tr) ∧
    (∀ (v : gbsqc.Vars) (tr0 : List Event),
      gbsqc.parse_options env
        (getopt_run gbsqc.cli_opts argv).results gbsqc.Vars.init
          = Except.ok (v, tr0) →
      v.use_stdout = false →
      (getopt_run gbsqc.cli_opts argv).optind < argv.length →
      env.open_error
        ((getopt_run gbsqc.cli_opts argv).argv.getD (getopt_run gbsqc.cli_opts argv).optind "") = none →
      yields env
        ((getopt_run gbsqc.cli_opts argv).argv.getD (getopt_run gbsqc.cli_opts argv).optind "") 0 ps →
      ps.length < fuel →
      ∃ tr, gbsqc.main env fuel argv = some (Outcome.returned EXIT_SUCCESS, tr) ∧
        ∀ t, Event.write_stdout t ∉ tr) := by
  constructor
  · intro v tr0 hopt hu harg hopen hy hf
    obtain ⟨n, body, hrun, _, _, hout⟩ :=
      gbsqc_serial.main_completes env fuel argv ps v tr0 hopt harg hopen hy hf
    refine ⟨_, hrun, ?_⟩
    intro t ht
    simp only [List.mem_append, List.mem_cons, List.mem_singleton, List.not_mem_nil,
      or_false] at ht
    rcases ht with (ht | ht) | ht
    · exact hout hu t ht
    · rcases ht with ht | ht | ht <;> cases ht
    · unfold gbsqc_serial.report_block at ht
      split at ht
      · simp at ht
      · simp at ht
  · intro v tr0 hopt hu harg hopen hy hf
    obtain ⟨n, body, hrun, _, _, hout⟩ :=
      gbsqc.main_completes_gbsqc env fuel argv ps v tr0 hopt harg hopen hy hf
    refine ⟨_, hrun, ?_⟩
    intro t ht
    simp only [List.mem_append, List.mem_cons, List.mem_singleton, List.not_mem_nil,
      or_false] at ht
    rcases ht with (ht | ht) | ht
    · exact hout hu t ht
    · rcases ht with ht | ht | ht <;> cases ht
    · unfold gbsqc.report_block at ht
      split at ht
      · simp at ht
      · simp at ht

/-- Witness for the amended C5: `-o /nonexistent/out.fq` before the read file for
`gbsqc_serial` and after it for `gbsqc`, in `sample_env`, where no output file
opens. -/
theorem output_open_result_ignored_witness :
    sample_env.output_opens "/nonexistent/out.fq" = false ∧
    (∃ tr, gbsqc_serial.main sample_env 2
        ["gbsqc_serial", "-o", "/nonexistent/out.fq", "reads.fq"]
          = some (Outcome.returned EXIT_SUCCESS, tr) ∧ ∀ t, Event.write_stdout t ∉ tr) ∧
    (∃ tr, gbsqc.main sample_env 2 ["gbsqc", "reads.fq", "-o", "/nonexistent/out.fq"]
          = some (Outcome.returned EXIT_SUCCESS, tr) ∧ ∀ t, Event.write_stdout t ∉ tr) :=
  ⟨rfl,
    (output_open_result_ignored sample_env 2
      ["gbsqc_serial", "-o", "/nonexistent/out.fq", "reads.fq"] [sample_pair]).1
      ⟨"", false, false, false⟩ [Event.open_output "/nonexistent/out.fq" false]
      rfl rfl (by decide) rfl ⟨rfl, rfl⟩ (by decide),
    (output_open_result_ignored sample_env 2
      ["gbsqc", "reads.fq", "-o", "/nonexistent/out.fq"] [sample_pair]).2
      ⟨"", false, false⟩ [Event.open_output "/nonexistent/out.fq" false]
      rfl rfl (by decide) rfl ⟨rfl, rfl⟩ (by decide)⟩

end qcpp

namespace qcpp

theorem quiet_append (a b : List Event) (ha : quiet a) (hb : quiet b) : quiet (a ++ b) := by
  intro e he
  rcases List.mem_append.mp he with h | h
  · exact ha e h
  · exact hb e h

theorem quiet_serial_usage (t : String) : quiet (Event.cerr t :: gbsqc_serial.usage_text) := by
  intro e he
  simp only [gbsqc_serial.usage_text, List.mem_cons, List.mem_singleton, List.not_mem_nil,
    or_false] at he
  rcases he with rfl | rfl | rfl | rfl | rfl | rfl <;> exact ⟨rfl, rfl⟩

theorem quiet_gbsqc_usage (t : String) : quiet (Event.cerr t :: gbsqc.usage_text) := by
  intro e he
  simp only [gbsqc.usage_text, List.mem_cons, List.mem_singleton, List.not_mem_nil,
    or_false] at he
  rcases he with rfl | rfl <;> exact ⟨rfl, rfl⟩

/-- C6: a startup failure gives `EXIT_FAILURE` and no output.  `gbsqc_serial`
returns `EXIT_FAILURE` having fetched no pair and written no read record and no
report when no read file follows the options or when opening the input raises
`IOError`; `gbsqc` does when no read file follows the options; `trim` does when
`argc` is not 2. -/
theorem startup_failure_exits_failure (env : Env) (fuel n_threads : Nat) (argv : List String) :
    (((getopt_run gbsqc_serial.cli_opts argv).optind + 1 > argv.length ∨
        (env.open_error
          ((getopt_run gbsqc_serial.cli_opts argv).argv.getD (getopt_run gbsqc_serial.cli_opts argv).optind "")).isSome) →
      ∃ tr, gbsqc_serial.main env fuel argv = some (Outcome.returned EXIT_FAILURE, tr) ∧
        quiet tr) ∧
    ((getopt_run gbsqc.cli_opts argv).optind + 1 > argv.length →
      ∃ tr, gbsqc.main env fuel argv = some (Outcome.returned EXIT_FAILURE, tr) ∧ quiet tr) ∧
    (argv.length ≠ 2 →
      ∃ tr, trim.main env n_threads argv = (Outcome.returned EXIT_FAILURE, tr) ∧ quiet tr) := by
  refine ⟨?_, ?_, ?_⟩
  · intro h
    unfold gbsqc_serial.main
    simp only []
    cases hopt : gbsqc_serial.parse_options env
        (getopt_run gbsqc_serial.cli_opts argv).results
        gbsqc_serial.Vars.init with
    | error tr =>
      exact ⟨tr, rfl, gbsqc_serial.parse_options_error env _ _ _ hopt⟩
    | ok r =>
      obtain ⟨v, tr0⟩ := r
      have hq0 : quiet tr0 := fun e he =>
        (gbsqc_serial.parse_options_ok env _ _ _ _ hopt).2 e he
      simp only []
      by_cases harg :
          (getopt_run gbsqc_serial.cli_opts argv).optind + 1 > argv.length
      · rw [if_pos harg]
        exact ⟨_, rfl, quiet_append _ _ hq0 (quiet_serial_usage _)⟩
      · rw [if_neg harg]
        have hsome := h.resolve_left harg
        cases hop : env.open_error
            ((getopt_run gbsqc_serial.cli_opts argv).argv.getD (getopt_run gbsqc_serial.cli_opts argv).optind "") with
        | none => rw [hop] at hsome; cases hsome
        | some what =>
          refine ⟨_, rfl, quiet_append _ _ hq0 ?_⟩
          intro e he
          simp only [List.mem_cons, List.mem_singleton, List.not_mem_nil, or_false] at he
          rcases he with rfl | rfl | rfl <;> exact ⟨rfl, rfl⟩
  · intro harg
    unfold gbsqc.main
    simp only []
    cases hopt : gbsqc.parse_options env
        (getopt_run gbsqc.cli_opts argv).results gbsqc.Vars.init with
    | error tr =>
      exact ⟨tr, rfl, gbsqc.parse_options_error_gbsqc env _ _ _ hopt⟩
    | ok r =>
      obtain ⟨v, tr0⟩ := r
      have hq0 : quiet tr0 := fun e he =>
        (gbsqc.parse_options_ok_gbsqc env _ _ _ _ hopt).2 e he
      simp only []
      rw [if_pos harg]
      exact ⟨_, rfl, quiet_append _ _ hq0 (quiet_gbsqc_usage _)⟩
  · intro hlen
    unfold trim.main
    rw [if_pos hlen]
    refine ⟨_, rfl, ?_⟩
    intro e he
    simp only [List.mem_singleton] at he
    subst he
    exact ⟨rfl, rfl⟩

/-- Witness for C6: `gbsqc_serial reads.fq` with an input that cannot be opened,
and for `gbsqc` and `trim` a command line with the program name alone. -/
theorem startup_failure_exits_failure_witness :
    (sample_env_unreadable.open_error
      ((getopt_run gbsqc_serial.cli_opts ["gbsqc_serial", "reads.fq"]).argv.getD
        (getopt_run gbsqc_serial.cli_opts ["gbsqc_serial", "reads.fq"]).optind "")).isSome ∧
    (getopt_run gbsqc.cli_opts ["prog"]).optind + 1 > ["prog"].length ∧
    ["prog"].length ≠ 2 ∧
    (∃ tr, gbsqc_serial.main sample_env_unreadable 0 ["gbsqc_serial", "reads.fq"]
        = some (Outcome.returned EXIT_FAILURE, tr) ∧ quiet tr) ∧
    (∃ tr, gbsqc.main sample_env 0 ["prog"] = some (Outcome.returned EXIT_FAILURE, tr) ∧
      quiet tr) ∧
    (∃ tr, trim.main sample_env 4 ["prog"] = (Outcome.returned EXIT_FAILURE, tr) ∧ quiet tr) :=
  ⟨rfl, by decide, by decide,
    (startup_failure_exits_failure sample_env_unreadable 0 4 ["gbsqc_serial", "reads.fq"]).1
      (Or.inr rfl),
    (startup_failure_exits_failure sample_env 0 4 ["prog"]).2.1 (by decide),
    (startup_failure_exits_failure sample_env 0 4 ["prog"]).2.2 (by decide)⟩

end qcpp

namespace qcpp

theorem last_yaml_without_y :
    ∀ (rs : List GetoptResult) (y : String), (∀ r ∈ rs, r.c ≠ 'y') → last_yaml rs y = y := by
  intro rs
  induction rs with
  | nil => intro y _; rfl
  | cons r rs ih =>
    intro y h
    have hr : r.c ≠ 'y' := h r (List.mem_cons_self _ _)
    rw [last_yaml, if_neg hr]
    exact ih y (fun x hx => h x (List.mem_cons_of_mem _ hx))

/-- C7: the report is optional and read only after exhaustion.  In a run of
`gbsqc_serial` or `gbsqc` whose options parse, that names a read file, opens it
and exhausts the stream, the report is written if and only if the last `-y` has a
non-empty path: the run is some events without any report event, the fetch that
fails, the last progress line, and then, exactly when that path is not empty,
the opening of the report file, one call of `report()` and its writing.  Without
any `-y` that path is empty. -/
theorem report_only_after_exhaustion (env : Env) (fuel : Nat) (argv : List String)
    (ps : List ReadPair) :
    (∀ (v : gbsqc_serial.Vars) (tr0 : List Event),
      gbsqc_serial.parse_options env
        (getopt_run gbsqc_serial.cli_opts argv).results gbsqc_serial.Vars.init
          = Except.ok (v, tr0) →
      (getopt_run gbsqc_serial.cli_opts argv).optind < argv.length →
      env.open_error
        ((getopt_run gbsqc_serial.cli_opts argv).argv.getD (getopt_run gbsqc_serial.cli_opts argv).optind "") = none →
      yields env
        ((getopt_run gbsqc_serial.cli_opts argv).argv.getD (getopt_run gbsqc_serial.cli_opts argv).optind "") 0 ps →
      ps.length < fuel →
      ∃ n body, (∀ e ∈ body, e.is_report = false) ∧
        gbsqc_serial.main env fuel argv = some (Outcome.returned EXIT_SUCCESS,
          body ++ [Event.fetch false, Event.progress n, Event.cerr "\n"] ++
            (if last_yaml
                (getopt_run gbsqc_serial.cli_opts argv).results "" ≠ "" then
              [Event.open_report
                (last_yaml (getopt_run gbsqc_serial.cli_opts argv).results "")
                (env.output_opens
                  (last_yaml (getopt_run gbsqc_serial.cli_opts argv).results "")),
               Event.report, Event.write_report]
            else []))) ∧
    (∀ (v : gbsqc.Vars) (tr0 : List Event),
      gbsqc.parse_options env
        (getopt_run gbsqc.cli_opts argv).results gbsqc.Vars.init
          = Except.ok (v, tr0) →
      (getopt_run gbsqc.cli_opts argv).optind < argv.length →
      env.open_error
        ((getopt_run gbsqc.cli_opts argv).argv.getD (getopt_run gbsqc.cli_opts argv).optind "") = none →
      yields env
        ((getopt_run gbsqc.cli_opts argv).argv.getD (getopt_run gbsqc.cli_opts argv).optind "") 0 ps →
      ps.length < fuel →
      ∃ n body, (∀ e ∈ body, e.is_report = false) ∧
        gbsqc.main env fuel argv = some (Outcome.returned EXIT_SUCCESS,
          body ++ [Event.fetch false, Event.progress n, Event.cerr "\n"] ++
            (if last_yaml (getopt_run gbsqc.cli_opts argv).results "" ≠ "" then
              [Event.open_report
                (last_yaml (getopt_run gbsqc.cli_opts argv).results "")
                (env.output_opens (last_yaml (getopt_run gbsqc.cli_opts argv).results "")),
               Event.report, Event.write_report]
            else []))) ∧
    (∀ rs : List GetoptResult, (∀ r ∈ rs, r.c ≠ 'y') → last_yaml rs "" = "") := by
  refine ⟨?_, ?_, fun rs h => last_yaml_without_y rs "" h⟩
  · intro v tr0 hopt harg hopen hy hf
    obtain ⟨n, body, hrun, _, hrep, _⟩ :=
      gbsqc_serial.main_completes env fuel argv ps v tr0 hopt harg hopen hy hf
    have hyaml := (gbsqc_serial.parse_options_ok env _ _ _ _ hopt).1
    refine ⟨n, body, hrep, ?_⟩
    rw [hrun]
    have hv : v.yaml_fname
        = last_yaml (getopt_run gbsqc_serial.cli_opts argv).results "" := hyaml
    unfold gbsqc_serial.report_block
    rw [hv]
    by_cases hne :
        last_yaml (getopt_run gbsqc_serial.cli_opts argv).results "" ≠ ""
    · rw [if_pos hne, if_pos ((string_length_pos _).mpr hne)]
    · rw [if_neg hne, if_neg (fun h => hne ((string_length_pos _).mp h))]
  · intro v tr0 hopt harg hopen hy hf
    obtain ⟨n, body, hrun, _, hrep, _⟩ :=
      gbsqc.main_completes_gbsqc env fuel argv ps v tr0 hopt harg hopen hy hf
    have hyaml := (gbsqc.parse_options_ok_gbsqc env _ _ _ _ hopt).1
    refine ⟨n, body, hrep, ?_⟩
    rw [hrun]
    have hv : v.yaml_fname
        = last_yaml (getopt_run gbsqc.cli_opts argv).results "" := hyaml
    unfold gbsqc.report_block
    rw [hv]
    by_cases hne : last_yaml (getopt_run gbsqc.cli_opts argv).results "" ≠ ""
    · rw [if_pos hne, if_pos ((string_length_pos _).mpr hne)]
    · rw [if_neg hne, if_neg (fun h => hne ((string_length_pos _).mp h))]

end qcpp

namespace qcpp

/-- Witness for C7: the read file first, then two `-y` options of which the last
names `report.yml`. -/
theorem report_only_after_exhaustion_witness :
    (getopt_run gbsqc_serial.cli_opts
      ["gbsqc_serial", "reads.fq", "-y", "a.yml", "-y", "report.yml"]).argv
      = ["gbsqc_serial", "-y", "a.yml", "-y", "report.yml", "reads.fq"] ∧
    gbsqc_serial.parse_options sample_env
      (getopt_run gbsqc_serial.cli_opts
        ["gbsqc_serial", "reads.fq", "-y", "a.yml", "-y", "report.yml"]).results
      gbsqc_serial.Vars.init = Except.ok (⟨"report.yml", false, true, false⟩, []) ∧
    yields sample_env "reads.fq" 0 [sample_pair] ∧
    (∃ n body, (∀ e ∈ body, e.is_report = false) ∧
      gbsqc_serial.main sample_env 2
          ["gbsqc_serial", "reads.fq", "-y", "a.yml", "-y", "report.yml"]
        = some (Outcome.returned EXIT_SUCCESS,
          body ++ [Event.fetch false, Event.progress n, Event.cerr "\n"] ++
            [Event.open_report "report.yml" false, Event.report, Event.write_report])) ∧
    (∃ n body, (∀ e ∈ body, e.is_report = false) ∧
      gbsqc.main sample_env 2 ["gbsqc", "reads.fq", "-y", "a.yml", "-y", "report.yml"]
        = some (Outcome.returned EXIT_SUCCESS,
          body ++ [Event.fetch false, Event.progress n, Event.cerr "\n"] ++
            [Event.open_report "report.yml" false, Event.report, Event.write_report])) :=
  ⟨rfl, rfl, ⟨rfl, rfl⟩,
    (report_only_after_exhaustion sample_env 2
      ["gbsqc_serial", "reads.fq", "-y", "a.yml", "-y", "report.yml"] [sample_pair]).1
      ⟨"report.yml", false, true, false⟩ [] rfl (by decide) rfl ⟨rfl, rfl⟩ (by decide),
    (report_only_after_exhaustion sample_env 2
      ["gbsqc", "reads.fq", "-y", "a.yml", "-y", "report.yml"] [sample_pair]).2.1
      ⟨"report.yml", true, false⟩ [] rfl (by decide) rfl ⟨rfl, rfl⟩ (by decide)⟩

/-- C8: single-read access on the paired wrappers touches nothing.
`ReadInterleaver::parse_read` returns `false` and leaves the name, sequence and
quality of the read, both parsers and the pair counter as they were;
`ReadDeInterleaver::write_read` leaves the read, both writers and the pair
counter as they were. -/
theorem single_read_access_is_inert (s : ReadInterleaver) (d : ReadDeInterleaver) (r : Read) :
    (s.parse_read r).1 = false ∧
    (s.parse_read r).2.1.name = r.name ∧
    (s.parse_read r).2.1.sequence = r.sequence ∧
    (s.parse_read r).2.1.quality = r.quality ∧
    (s.parse_read r).2.2.parser_r1 = s.parser_r1 ∧
    (s.parse_read r).2.2.parser_r2 = s.parser_r2 ∧
    (s.parse_read r).2.2 = s ∧
    (d.write_read r).1 = r ∧
    (d.write_read r).2.r1_writer = d.r1_writer ∧
    (d.write_read r).2.r2_writer = d.r2_writer ∧
    (d.write_read r).2._num_pairs = d._num_pairs ∧
    (d.write_read r).2 = d :=
  ⟨rfl, rfl, rfl, rfl, rfl, rfl, rfl, rfl, rfl, rfl, rfl, rfl⟩

end qcpp

namespace trim

open qcpp

/-- The loop of `parse_and_print` entered with a pair in hand, on a stream that
yields `ps` from call `k` on and is then exhausted. -/
theorem parse_and_print_loop_spec (env : Env) (path : String) :
    ∀ (ps : List ReadPair) (fuel k : Nat) (rp : ReadPair),
      yields env path k ps → ps.length + 1 < fuel →
        parse_and_print_loop env path fuel true rp k
          = some (k + ps.length + 1,
              Event.write_stdout (env.pair_str rp) ::
                (fetched_and_printed env ps ++ [Event.fetch false])) := by
  intro ps
  induction ps with
  | nil =>
    intro fuel k rp hy hf
    obtain ⟨f, rfl⟩ : ∃ f, fuel = f + 2 := ⟨fuel - 2, by simp at hf; omega⟩
    have hs : env.script path k = none := hy
    simp [parse_and_print_loop, hs, fetched_and_printed]
  | cons p ps ih =>
    intro fuel k rp hy hf
    obtain ⟨f, rfl⟩ : ∃ f, fuel = f + 1 := ⟨fuel - 1, by simp at hf; omega⟩
    obtain ⟨hs, hrest⟩ : env.script path k = some p ∧ yields env path (k + 1) ps := hy
    have hf' : ps.length + 1 < f := by simp at hf; omega
    have hrec := ih f (k + 1) p hrest hf'
    rw [parse_and_print_loop]
    simp only [if_true, hs, hrec, fetched_and_printed]
    simp
    omega

theorem fetches_fetched_and_printed (env : Env) (ps : List ReadPair) :
    fetches (fetched_and_printed env ps) = List.replicate ps.length true := by
  induction ps with
  | nil => rfl
  | cons p ps ih => simp [fetched_and_printed, fetches, ih, List.replicate_succ]

theorem writes_fetched_and_printed (env : Env) (ps : List ReadPair) :
    writes (fetched_and_printed env ps) = ps.map env.pair_str := by
  induction ps with
  | nil => rfl
  | cons p ps ih => simp [fetched_and_printed, writes, ih]

/-- C9: on a stream whose `parse_read_pair` answers `true` exactly for the pairs
`ps` and then `false`, one run of `parse_and_print` ends after `ps.length + 1`
calls; its events are, for each pair in fetch order, the fetch and the printing
of `str()` of that pair, and last the one fetch that fails: every fetch but the
last succeeds, and the texts printed are `str()` of the pairs in order. -/
theorem parse_and_print_spec (env : Env) (path : String) (ps : List ReadPair) (fuel k : Nat)
    (hy : yields env path k ps) (hf : ps.length < fuel) :
    ∃ tr, parse_and_print env path fuel k = some (k + (ps.length + 1), tr) ∧
      tr = fetched_and_printed env ps ++ [Event.fetch false] ∧
      fetches tr = List.replicate ps.length true ++ [false] ∧
      writes tr = ps.map env.pair_str := by
  refine ⟨fetched_and_printed env ps ++ [Event.fetch false], ?_, rfl, ?_, ?_⟩
  · cases ps with
    | nil =>
      obtain ⟨f, rfl⟩ : ∃ f, fuel = f + 1 := ⟨fuel - 1, by simp at hf; omega⟩
      have hs : env.script path k = none := hy
      simp [parse_and_print, parse_and_print_loop, hs, fetched_and_printed]
    | cons p ps =>
      obtain ⟨hs, hrest⟩ : env.script path k = some p ∧ yields env path (k + 1) ps := hy
      have hf' : ps.length + 1 < fuel := by simpa using hf
      have hrec := parse_and_print_loop_spec env path ps fuel (k + 1) p hrest hf'
      simp only [parse_and_print, hs, hrec, fetched_and_printed]
      simp
      omega
  · rw [fetches_append, fetches_fetched_and_printed]
    rfl
  · rw [writes_append, writes_fetched_and_printed]
    simp [writes]

/-- Witness for C9: the stream of `sample_env_long`, which holds two pairs. -/
theorem parse_and_print_spec_witness :
    yields sample_env_long "reads.fq" 0 [sample_long_pair, sample_pair] ∧
    [sample_long_pair, sample_pair].length < 3 ∧
    ∃ tr, parse_and_print sample_env_long "reads.fq" 3 0
        = some (0 + ([sample_long_pair, sample_pair].length + 1), tr) ∧
      tr = fetched_and_printed sample_env_long [sample_long_pair, sample_pair]
        ++ [Event.fetch false] ∧
      fetches tr = List.replicate [sample_long_pair, sample_pair].length true ++ [false] ∧
      writes tr = [sample_long_pair, sample_pair].map sample_env_long.pair_str :=
  ⟨⟨rfl, rfl, rfl⟩, by decide,
    parse_and_print_spec sample_env_long "reads.fq" [sample_long_pair, sample_pair] 3 0
      ⟨rfl, rfl, rfl⟩ (by decide)⟩

/-- C10: with a read file that opens, `main` of `trim` starts exactly `n` workers,
`n` being the value of `hardware_concurrency()`, joins those `n`, then calls
`report()` and returns `EXIT_SUCCESS`.  When `n` is zero the whole process,
whatever the stream holds, makes no call of `parse_read_pair` and prints no
pair, and the report is still produced. -/
theorem worker_count_is_hardware_concurrency (env : Env) (n : Nat) (argv : List String)
    (hargc : argv.length = 2) (hopen : env.open_error (argv.getD 1 "") = none) :
    main env n argv = (Outcome.returned EXIT_SUCCESS,
      [Event.open_input (argv.getD 1 ""),
       Event.append_processor "before qc",
       Event.append_processor "trim/merge reads",
       Event.append_processor "after Adaptor removal",
       Event.append_processor "trim at 50",
       Event.append_processor "after qc"]
      ++ (List.range n).map Event.spawn
      ++ (List.range n).map Event.join
      ++ [Event.report, Event.cerr_report]) ∧
    (n = 0 → ∀ worker : Nat → List Event,
      fetches (process_events worker (main env n argv).2) = [] ∧
      writes (process_events worker (main env n argv).2) = [] ∧
      Event.report ∈ process_events worker (main env n argv).2) := by
  have hmain : main env n argv = (Outcome.returned EXIT_SUCCESS,
      [Event.open_input (argv.getD 1 ""),
       Event.append_processor "before qc",
       Event.append_processor "trim/merge reads",
       Event.append_processor "after Adaptor removal",
       Event.append_processor "trim at 50",
       Event.append_processor "after qc"]
      ++ (List.range n).map Event.spawn
      ++ (List.range n).map Event.join
      ++ [Event.report, Event.cerr_report]) := by
    unfold main
    rw [if_neg (by simp [hargc])]
    simp only [hopen]
  refine ⟨hmain, ?_⟩
  intro hn worker
  subst hn
  rw [hmain]
  simp [process_events, fetches, writes]

/-- Witness for C10: `trim reads.fq` in `sample_env`, with no hardware thread
reported. -/
theorem worker_count_is_hardware_concurrency_witness :
    ["trim", "reads.fq"].length = 2 ∧
    sample_env.open_error (["trim", "reads.fq"].getD 1 "") = none ∧
    sample_env.script "reads.fq" 0 = some sample_pair ∧
    ∀ worker : Nat → List Event,
      fetches (process_events worker (main sample_env 0 ["trim", "reads.fq"]).2) = [] ∧
      writes (process_events worker (main sample_env 0 ["trim", "reads.fq"]).2) = [] ∧
      Event.report ∈ process_events worker (main sample_env 0 ["trim", "reads.fq"]).2 :=
  ⟨rfl, rfl, rfl,
    (worker_count_is_hardware_concurrency sample_env 0 ["trim", "reads.fq"] rfl rfl).2 rfl⟩

end trim
